import Mathlib

/-!
Shallow embedding of `steamtoolsadder_gui.py` (repository
`Remix22222/steamtoolsadder`).

Network calls, the filesystem and OS processes are modelled by explicit
oracle arguments (HTTP responses, copy-success predicates, probe results)
and explicit state records; every Python method of `SteamToolsDownloader`
and `SteamToolsInstaller` relevant to the claims is translated into a pure
Lean function of the same name.  Log messages emitted through the
`log_callback` parameters are modelled by the inductive type `LogMsg`,
one constructor per distinct message in the source.
-/

namespace SteamToolsAdder

/-! ## String utilities modelling Python primitives -/

/-- Model of Python's `needle in hay` substring test, on character lists:
true iff `needle` occurs contiguously inside `hay`. -/
def containsSub (needle : List Char) : List Char → Bool
  | [] => needle.isEmpty
  | c :: rest => needle.isPrefixOf (c :: rest) || containsSub needle rest

/-- Model of Python's `needle in hay` on strings. -/
def strContains (hay needle : String) : Bool :=
  containsSub needle.data hay.data

/-- Model of Python's `str.isdigit` for ASCII strings: nonempty and all
characters decimal digits. -/
def pyIsDigit (s : String) : Bool :=
  !s.data.isEmpty && s.data.all Char.isDigit

/-- Model of Python's `int(s)` on a digit string. -/
def pyInt (s : String) : Nat :=
  s.data.foldl (fun n c => 10 * n + (c.toNat - 48)) 0

/-- Model of Python's `str.lower` for ASCII strings. -/
def pyLower (s : String) : String :=
  ⟨s.data.map Char.toLower⟩

/-- Numeric value of a digit run (helper for the regex model). -/
def natOfDigits (l : List Char) : Nat :=
  l.foldl (fun n c => 10 * n + (c.toNat - 48)) 0

/-- Model of `re.search(r'/app/(\d+)', query)`: scan left to right for the
first position where the literal `/app/` is followed by at least one digit;
capture the maximal digit run there. -/
def searchAppId : List Char → Option Nat
  | [] => none
  | c :: rest =>
    let here := c :: rest
    if "/app/".data.isPrefixOf here && !((here.drop 5).takeWhile Char.isDigit).isEmpty then
      some (natOfDigits ((here.drop 5).takeWhile Char.isDigit))
    else
      searchAppId rest

/-- The URL branch of `find_game` (lines 86-89): only queries containing one
of the two marker substrings are scanned for `/app/<digits>`. -/
def urlAppId (query : String) : Option Nat :=
  if strContains query "store.steampowered.com" || strContains query "steamcommunity.com" then
    searchAppId query.data
  else
    none

/-! ## Catalog model (`games_cache`, `get_app_list`) -/

/-- Lookup in the cache dict; Python dict-comprehension semantics let a later
binding for the same key overwrite an earlier one, so the last binding wins. -/
def dictGet (d : List (String × Nat)) (k : String) : Option Nat :=
  (d.reverse.find? (fun kv => kv.1 == k)).map (·.2)

/-- Key list of the cache dict, first occurrence order, duplicates removed. -/
def dictKeys (d : List (String × Nat)) : List String :=
  (d.map (·.1)).eraseDups

/-- Embedding of `SteamToolsDownloader.get_app_list` (lines 52-62).
`fetch` is the network oracle: `none` models `requests.get`/JSON parsing
raising, `some apps` the parsed `applist.apps` records as (name, appid)
pairs.  Returns the new `games_cache` (which is also the method's return
value) and whether a network fetch was attempted. -/
def get_app_list (fetch : Option (List (String × Nat))) (cache : List (String × Nat)) :
    List (String × Nat) × Bool :=
  if cache.isEmpty then
    match fetch with
    | some apps => (apps.map (fun a => (pyLower a.1, a.2)), true)
    | none => (cache, true)
  else
    (cache, false)

/-! ## Fuzzy matching (`difflib.get_close_matches` with `n=5, cutoff=0.7`) -/

/-- Descending order on (score, string) pairs, as used by
`heapq.nlargest` on `(ratio, x)` tuples. -/
def pairGe (a b : ℚ × String) : Bool :=
  decide (b.1 < a.1) || (a.1 == b.1 && !decide (a.2 < b.2))

/-- Insert into a descending-sorted list. -/
def insertDesc (x : ℚ × String) : List (ℚ × String) → List (ℚ × String)
  | [] => [x]
  | y :: ys => if pairGe x y then x :: y :: ys else y :: insertDesc x ys

/-- Sort descending by (score, string). -/
def sortDesc : List (ℚ × String) → List (ℚ × String)
  | [] => []
  | x :: xs => insertDesc x (sortDesc xs)

/-- Model of `heapq.nlargest n`. -/
def nlargest (n : Nat) (l : List (ℚ × String)) : List (ℚ × String) :=
  (sortDesc l).take n

/-- Embedding of `difflib.get_close_matches(word, possibilities, n, cutoff)`:
keep the possibilities whose similarity `ratio` to `word` is at least
`cutoff`, take the `n` best.  The similarity measure itself
(`SequenceMatcher.ratio`) is passed as a parameter `ratio`; the claims at
stake depend only on the filter-and-take structure, which is faithful to
the library code. -/
def getCloseMatches (ratio : String → String → ℚ) (word : String)
    (possibilities : List String) (n : Nat) (cutoff : ℚ) : List String :=
  let result := possibilities.filterMap (fun x =>
    if cutoff ≤ ratio word x then some (ratio word x, x) else none)
  (nlargest n result).map (·.2)

/-! ## `find_game` (lines 82-112) -/

/-- Result of `find_game`: the Python method returns an `int` (resolved app
id), a list of `(name, appid)` pairs (candidates for GUI selection), or
`None`. -/
inductive FindResult where
  | resolvedId (n : Nat)
  | candidates (cs : List (String × Nat))
  | notFound
deriving DecidableEq, Repr

/-- Embedding of `SteamToolsDownloader.find_game` (lines 82-112).
Returns the result, the `games_cache` after the call, and whether a
catalog network fetch was attempted during the call. -/
def find_game (ratio : String → String → ℚ) (fetch : Option (List (String × Nat)))
    (cache : List (String × Nat)) (query : String) :
    FindResult × List (String × Nat) × Bool :=
  match urlAppId query with
  | some n => (.resolvedId n, cache, false)
  | none =>
    if pyIsDigit query then
      (.resolvedId (pyInt query), cache, false)
    else
      let t := get_app_list fetch cache
      let games := t.1
      if games.isEmpty then
        (.notFound, games, t.2)
      else
        match dictGet games (pyLower query) with
        | some i => (.resolvedId i, games, t.2)
        | none =>
          let ms := getCloseMatches ratio (pyLower query) (dictKeys games) 5 (mkRat 7 10)
          if ms.isEmpty then
            (.notFound, games, t.2)
          else
            (.candidates (ms.map (fun m => (m, (dictGet games m).getD 0))), games, t.2)

/-! ## Log messages

One constructor per distinct `log_callback` message emitted by the embedded
methods. -/

inductive LogMsg where
  | downloading (app_id : Nat)
  | noDataFound (app_id : Nat)
  | downloaded
  | extracting
  | extracted
  | downloadError
  | noFilesFound
  | copyingToSteam
  | steamNotFound
  | copyingPlugin
  | copyingManifest
  | copyFailed (base : String)
  | cleaningUp
  | deletedTemp
  | deleteFailed
  | steamtoolsNotFound
  | steamtoolsLaunched
  | launchFailed
deriving DecidableEq, Repr

/-! ## `download_appid_zip` (lines 128-164) -/

/-- HTTP oracle for the archive endpoint: `netFail` models `requests.get`
raising, `notFound` a 404 status, `httpError` another error status (so
`raise_for_status` raises), `ok entries valid` a 200 response whose body is
an archive with the given entry names; `valid = false` models a malformed
archive on which `ZipFile`/`extractall` raises. -/
inductive HttpResp where
  | netFail
  | notFound
  | httpError
  | ok (entries : List String) (valid : Bool)
deriving DecidableEq, Repr

/-- State of the destination (`output_dir`) of an archive fetch: whether the
directory exists, and the names of the files inside it. -/
structure Fs where
  dirExists : Bool
  files : List String
deriving DecidableEq, Repr

/-- Embedding of `SteamToolsDownloader.download_appid_zip` (lines 128-164).
Returns the Python return value (a plain `Bool`), the destination state and
the emitted log messages.  `Path(output_dir).mkdir(parents=True,
exist_ok=True)` runs before the request, so the directory exists in every
outcome. -/
def download_appid_zip (app_id : Nat) (resp : HttpResp) (fs : Fs) :
    Bool × Fs × List LogMsg :=
  let fs1 : Fs := { fs with dirExists := true }
  let zipName := toString app_id ++ ".zip"
  match resp with
  | .netFail => (false, fs1, [.downloading app_id, .downloadError])
  | .notFound => (false, fs1, [.downloading app_id, .noDataFound app_id])
  | .httpError => (false, fs1, [.downloading app_id, .downloadError])
  | .ok entries valid =>
    let fs2 : Fs := { fs1 with files := fs1.files ++ [zipName] }
    if valid then
      let fs3 : Fs := { fs2 with files := fs2.files ++ entries }
      let fs4 : Fs := { fs3 with files := fs3.files.filter (· != zipName) }
      (true, fs4, [.downloading app_id, .downloaded, .extracting, .extracted])
    else
      (false, fs2, [.downloading app_id, .downloadError])

/-! ## `copy_files_to_steam` (lines 166-219) -/

/-- A file inside the staging directory: its subdirectory path relative to
the staging root (discarded at copy time, the source uses
`file_path.name`) and its base name. -/
structure StagedFile where
  relDir : List String
  base : String
deriving DecidableEq, Repr

/-- Extension test modelling `Path.rglob("*.ext")`: the base name ends with
the extension. -/
def hasExt (f : StagedFile) (ext : String) : Bool :=
  ext.data.isSuffixOf f.base.data

/-- The `source_path.rglob("*.lua")` list (line 169), in traversal order. -/
def luaFiles (src : List StagedFile) : List StagedFile :=
  src.filter (fun f => hasExt f ".lua")

/-- The `source_path.rglob("*.manifest")` list (line 170). -/
def manifestFiles (src : List StagedFile) : List StagedFile :=
  src.filter (fun f => hasExt f ".manifest")

/-- The `source_path.rglob("*.st")` list (line 171). -/
def stFiles (src : List StagedFile) : List StagedFile :=
  src.filter (fun f => hasExt f ".st")

/-- The `files_to_copy = lua_files + st_files` list (line 190). -/
def pluginFiles (src : List StagedFile) : List StagedFile :=
  luaFiles src ++ stFiles src

/-- A destination directory's contents, keyed by file name. -/
def DirContents := String → Option StagedFile

/-- Overwriting write of one file into a destination directory
(`shutil.copy2(file_path, dest_path)` with `dest_path = folder /
file_path.name`). -/
def setFileF (d : DirContents) (k : String) (v : StagedFile) : DirContents :=
  fun k2 => if k2 = k then some v else d k2

/-- Destination contents after the per-file copy loop (lines 195-200 /
205-210): each file is attempted independently; `copyOk` is the oracle for
whether `shutil.copy2` succeeds on that file. -/
def copyLoopD (copyOk : StagedFile → Bool) : List StagedFile → DirContents → DirContents
  | [], d => d
  | f :: fs, d => copyLoopD copyOk fs (if copyOk f then setFileF d f.base f else d)

/-- Log messages of the per-file copy loop: one failure message per failed
copy, in order. -/
def copyLoopLogs (copyOk : StagedFile → Bool) : List StagedFile → List LogMsg
  | [] => []
  | f :: fs =>
    if copyOk f then copyLoopLogs copyOk fs
    else .copyFailed f.base :: copyLoopLogs copyOk fs

/-- Filesystem state seen by the installer: the two destination directories
(whether created, and contents) and whether the staging directory exists. -/
structure InstallState where
  stplugExists : Bool
  depotExists : Bool
  stplug : DirContents
  depot : DirContents
  stagingExists : Bool

/-- Embedding of `SteamToolsDownloader.copy_files_to_steam` (lines
166-219).  `steamFound` models `find_steam_folder()` returning a path,
`copyOk` the per-file success of `shutil.copy2`, `rmtreeOk` the success of
`shutil.rmtree` on the staging directory.  Returns the Python return value
(a plain `Bool`), the new filesystem state and the emitted log messages. -/
def copy_files_to_steam (src : List StagedFile) (steamFound : Bool)
    (copyOk : StagedFile → Bool) (rmtreeOk : Bool) (st : InstallState) :
    Bool × InstallState × List LogMsg :=
  if (luaFiles src).isEmpty && (manifestFiles src).isEmpty && (stFiles src).isEmpty then
    (false, st, [.noFilesFound])
  else if !steamFound then
    (false, st, [.copyingToSteam, .steamNotFound])
  else
    let st1 : InstallState := { st with stplugExists := true, depotExists := true }
    let toCopy := pluginFiles src
    let plugLogs : List LogMsg :=
      if toCopy.isEmpty then [] else .copyingPlugin :: copyLoopLogs copyOk toCopy
    let depLogs : List LogMsg :=
      if (manifestFiles src).isEmpty then []
      else .copyingManifest :: copyLoopLogs copyOk (manifestFiles src)
    let st2 : InstallState :=
      { st1 with
        stplug := copyLoopD copyOk toCopy st1.stplug
        depot := copyLoopD copyOk (manifestFiles src) st1.depot
        stagingExists := if rmtreeOk then false else st1.stagingExists }
    let cleanLogs : List LogMsg :=
      if rmtreeOk then [.cleaningUp, .deletedTemp] else [.cleaningUp, .deleteFailed]
    (true, st2, [.copyingToSteam] ++ plugLogs ++ depLogs ++ cleanLogs)

/-! ## `launch_steamtools` (lines 249-265) -/

/-- Embedding of `SteamToolsDownloader.launch_steamtools` (lines 249-265).
`stored` is `self.steamtools_exe` before the call, `probe` the result the
probe `find_steamtools_exe()` would return at call time, `pathExists` the
`Path.exists` oracle and `popenOk` whether `subprocess.Popen` succeeds.
Returns the new `self.steamtools_exe`, the Python return value, and logs. -/
def launch_steamtools (stored probe : Option String) (pathExists : String → Bool)
    (popenOk : Bool) : Option String × Bool × List LogMsg :=
  let st := match stored with
    | none => probe
    | some p => some p
  match st with
  | none => (st, false, [.steamtoolsNotFound])
  | some p =>
    if !pathExists p then (st, false, [.steamtoolsNotFound])
    else if popenOk then (st, true, [.steamtoolsLaunched])
    else (st, false, [.launchFailed])

/-! ## GUI pipeline guard (`start_download` lines 469-495,
`finish_processing` lines 655-660) -/

/-- The GUI state touched by `start_download` and `finish_processing`. -/
structure GuiState where
  is_processing : Bool
  installBtnEnabled : Bool
  progressRunning : Bool
  logLines : List LogMsg
  status : String
deriving DecidableEq, Repr

/-- What a call to `start_download` did. -/
inductive StartOutcome where
  | rejectedBusy
  | missingSteamtools
  | emptyQuery
  | started
deriving DecidableEq, Repr

/-- Embedding of `SteamToolsInstaller.start_download` (lines 469-495).
`steamtools_exe` is the downloader's stored companion-tool path and `query`
the text of the search entry.  A worker thread is spawned exactly when the
outcome is `started`. -/
def start_download (gs : GuiState) (steamtools_exe : Option String) (query : String) :
    GuiState × StartOutcome :=
  if gs.is_processing then
    (gs, .rejectedBusy)
  else if steamtools_exe.isNone then
    (gs, .missingSteamtools)
  else if query.trim.isEmpty then
    (gs, .emptyQuery)
  else
    ({ gs with
        is_processing := true
        installBtnEnabled := false
        progressRunning := true
        logLines := [] },
      .started)

/-- Embedding of `SteamToolsInstaller.finish_processing` (lines 655-660). -/
def finish_processing (gs : GuiState) : GuiState :=
  { gs with
    is_processing := false
    progressRunning := false
    installBtnEnabled := true
    status := "Ready" }

/-! ## Helper predicates used in theorem statements -/

/-- The last file in the list whose copy succeeds and whose base name is
`k`; this is what the overwriting copy loop leaves at destination name `k`. -/
def lastMatch (copyOk : StagedFile → Bool) (k : String) : List StagedFile → Option StagedFile
  | [] => none
  | f :: fs =>
    match lastMatch copyOk k fs with
    | some g => some g
    | none => if copyOk f && f.base == k then some f else none

/-! ## Concrete fixtures for evaluated instances -/

/-- An empty installer filesystem: destination directories absent and empty,
staging directory present. -/
def st0 : InstallState :=
  { stplugExists := false
    depotExists := false
    stplug := fun _ => none
    depot := fun _ => none
    stagingExists := true }

/-- A staged plugin file at the staging root. -/
def fileA : StagedFile := { relDir := [], base := "a.lua" }

/-- A second staged plugin file at the staging root. -/
def fileB : StagedFile := { relDir := [], base := "b.lua" }

/-- A staged plugin file inside subdirectory `sub1`. -/
def fileSub1 : StagedFile := { relDir := ["sub1"], base := "x.lua" }

/-- A staged plugin file with the same base name inside subdirectory `sub2`. -/
def fileSub2 : StagedFile := { relDir := ["sub2"], base := "x.lua" }

/-- Copy oracle under which only `b.lua` copies successfully. -/
def okOnlyB : StagedFile → Bool := fun f => f.base == "b.lua"

/-- A GUI state whose processing flag is set. -/
def gsBusy : GuiState :=
  { is_processing := true
    installBtnEnabled := false
    progressRunning := true
    logLines := []
    status := "Ready" }

/-- A constant similarity measure (the claims quantify over the measure). -/
def ratio0 : String → String → ℚ := fun _ _ => mkRat 0 1

/-- A constant similarity measure rating every pair fully similar. -/
def ratio1 : String → String → ℚ := fun _ _ => mkRat 1 1

/-! ## Helper lemmas -/

theorem containsSub_subset {n h : List Char} (hc : containsSub n h = true) :
    ∀ c ∈ n, c ∈ h := by
  induction h with
  | nil =>
    simp only [containsSub, List.isEmpty_iff] at hc
    subst hc
    intro c hmem
    exact absurd hmem (List.not_mem_nil c)
  | cons a t ih =>
    simp only [containsSub, Bool.or_eq_true] at hc
    intro c hmem
    rcases hc with hpre | hrest
    · exact (List.isPrefixOf_iff_prefix.mp hpre).subset hmem
    · exact List.mem_cons_of_mem a (ih hrest c hmem)

theorem pyIsDigit_urlAppId {q : String} (h : pyIsDigit q = true) :
    urlAppId q = none := by
  have hall : ∀ c ∈ q.data, c.isDigit = true := by
    have := (Bool.and_eq_true _ _).mp h
    exact fun c hc => List.all_eq_true.mp this.2 c hc
  have h1 : strContains q "store.steampowered.com" = false := by
    cases hcc : strContains q "store.steampowered.com" with
    | false => rfl
    | true =>
      have hs : 's' ∈ q.data := containsSub_subset hcc 's' (by decide)
      have := hall 's' hs
      simp at this
  have h2 : strContains q "steamcommunity.com" = false := by
    cases hcc : strContains q "steamcommunity.com" with
    | false => rfl
    | true =>
      have hs : 's' ∈ q.data := containsSub_subset hcc 's' (by decide)
      have := hall 's' hs
      simp at this
  simp [urlAppId, h1, h2]

theorem mem_insertDesc {x y : ℚ × String} {l : List (ℚ × String)}
    (h : y ∈ insertDesc x l) : y = x ∨ y ∈ l := by
  induction l with
  | nil =>
    simp only [insertDesc, List.mem_singleton] at h
    exact Or.inl h
  | cons a t ih =>
    simp only [insertDesc] at h
    by_cases hp : pairGe x a
    · rw [if_pos hp] at h
      rcases List.mem_cons.mp h with h1 | h1
      · exact Or.inl h1
      · exact Or.inr h1
    · rw [if_neg hp] at h
      rcases List.mem_cons.mp h with h1 | h1
      · exact Or.inr (h1 ▸ List.mem_cons_self a t)
      · rcases ih h1 with h2 | h2
        · exact Or.inl h2
        · exact Or.inr (List.mem_cons_of_mem a h2)

theorem mem_sortDesc {y : ℚ × String} {l : List (ℚ × String)}
    (h : y ∈ sortDesc l) : y ∈ l := by
  induction l with
  | nil => simp [sortDesc] at h
  | cons a t ih =>
    simp only [sortDesc] at h
    rcases mem_insertDesc h with h' | h'
    · exact h' ▸ List.mem_cons_self a t
    · exact List.mem_cons_of_mem a (ih h')

theorem getCloseMatches_length (ratio : String → String → ℚ) (word : String)
    (possibilities : List String) (n : Nat) (cutoff : ℚ) :
    (getCloseMatches ratio word possibilities n cutoff).length ≤ n := by
  simp only [getCloseMatches, nlargest, List.length_map]
  exact (List.length_take_le n _)

theorem getCloseMatches_mem {ratio : String → String → ℚ} {word : String}
    {possibilities : List String} {n : Nat} {cutoff : ℚ} {x : String}
    (hx : x ∈ getCloseMatches ratio word possibilities n cutoff) :
    cutoff ≤ ratio word x := by
  simp only [getCloseMatches, nlargest, List.mem_map] at hx
  obtain ⟨p, hp, hpx⟩ := hx
  have hp2 : p ∈ possibilities.filterMap (fun y =>
      if cutoff ≤ ratio word y then some (ratio word y, y) else none) :=
    mem_sortDesc (List.mem_of_mem_take hp)
  rw [List.mem_filterMap] at hp2
  obtain ⟨a, _, ha⟩ := hp2
  by_cases hc : cutoff ≤ ratio word a
  · rw [if_pos hc, Option.some_inj] at ha
    have : p.2 = a := by rw [← ha]
    rw [← hpx, this]
    exact hc
  · rw [if_neg hc] at ha
    exact absurd ha (Option.noConfusion)

theorem copyLoopD_eq (ok : StagedFile → Bool) (fs : List StagedFile)
    (d : DirContents) (k : String) :
    copyLoopD ok fs d k =
      (match lastMatch ok k fs with
       | some g => some g
       | none => d k) := by
  induction fs generalizing d with
  | nil => rfl
  | cons f fs ih =>
    show copyLoopD ok fs (if ok f then setFileF d f.base f else d) k = _
    rw [ih]
    cases hlm : lastMatch ok k fs with
    | some g => simp [lastMatch, hlm]
    | none =>
      simp only [lastMatch, hlm]
      by_cases hok : ok f
      · by_cases hk : f.base = k
        · simp [hok, hk, setFileF]
        · have hbk : (f.base == k) = false := beq_eq_false_iff_ne.mpr hk
          have hkb : k ≠ f.base := fun hkk => hk hkk.symm
          simp [hok, hbk, setFileF, hkb]
      · have hokf : ok f = false := Bool.eq_false_iff.mpr hok
        simp [hokf]

theorem copy_files_reduce (src : List StagedFile) (ok : StagedFile → Bool)
    (rm : Bool) (st : InstallState)
    (hg : ((luaFiles src).isEmpty && (manifestFiles src).isEmpty
            && (stFiles src).isEmpty) = false) :
    copy_files_to_steam src true ok rm st
      = (true,
         { stplugExists := true
           depotExists := true
           stplug := copyLoopD ok (pluginFiles src) st.stplug
           depot := copyLoopD ok (manifestFiles src) st.depot
           stagingExists := if rm then false else st.stagingExists },
         [.copyingToSteam]
           ++ (if (pluginFiles src).isEmpty then []
               else .copyingPlugin :: copyLoopLogs ok (pluginFiles src))
           ++ (if (manifestFiles src).isEmpty then []
               else .copyingManifest :: copyLoopLogs ok (manifestFiles src))
           ++ (if rm then [.cleaningUp, .deletedTemp]
               else [.cleaningUp, .deleteFailed])) := by
  unfold copy_files_to_steam
  rw [hg]
  rfl

theorem lastMatch_isSome_of_mem {ok : StagedFile → Bool} {fs : List StagedFile}
    {f : StagedFile} (hmem : f ∈ fs) (hok : ok f = true) :
    lastMatch ok f.base fs ≠ none := by
  induction fs with
  | nil => exact absurd hmem (List.not_mem_nil f)
  | cons g gs ih =>
    rcases List.mem_cons.mp hmem with h | h
    · subst h
      show (match lastMatch ok f.base gs with
            | some g => some g
            | none => if ok f && f.base == f.base then some f else none) ≠ none
      cases hlm : lastMatch ok f.base gs with
      | some g => simp
      | none => simp [hok]
    · have := ih h
      show (match lastMatch ok f.base gs with
            | some g2 => some g2
            | none => if ok g && g.base == f.base then some g else none) ≠ none
      cases hlm : lastMatch ok f.base gs with
      | some g2 => simp
      | none => exact absurd hlm this

/-- On the catalog path (no URL marker hit, not numeric), `find_game`
attempts a network fetch exactly when `get_app_list` does. -/
theorem find_game_fetch_attempt (ratio : String → String → ℚ)
    (fetch : Option (List (String × Nat))) (cache : List (String × Nat))
    (q : String) (h1 : urlAppId q = none) (h2 : pyIsDigit q = false) :
    (find_game ratio fetch cache q).2.2 = (get_app_list fetch cache).2 := by
  unfold find_game
  rw [h1]
  simp only [h2, Bool.false_eq_true, if_false]
  by_cases hge : (get_app_list fetch cache).1.isEmpty
  · simp [hge]
  · simp only [hge, Bool.false_eq_true, if_false]
    cases hdg : dictGet (get_app_list fetch cache).1 (pyLower q) with
    | some i => simp [hdg]
    | none =>
      simp only [hdg]
      by_cases hms : (getCloseMatches ratio (pyLower q)
          (dictKeys (get_app_list fetch cache).1) 5 (mkRat 7 10)).isEmpty
      · simp [hms]
      · simp [hms]

/-! ## Claim theorems -/

/-- C1 counterexample: an app id whose archive request returns HTTP 404 does
NOT yield an outcome distinct from the general failure outcome — the Python
function returns the same value `False` for a 404 and for a network error —
and, starting from an absent destination directory, the 404 path still
creates that directory (so the destination is not left unmodified). -/
theorem download404_not_distinct_from_failure :
    (download_appid_zip 440 .notFound { dirExists := false, files := [] }).1
      = (download_appid_zip 440 .netFail { dirExists := false, files := [] }).1
    ∧ (download_appid_zip 440 .notFound { dirExists := false, files := [] }).2.1.dirExists
        = true := by
  constructor <;> rfl

/-- C1 (amended): on an HTTP 404, `download_appid_zip` returns `False` — the
same value as every other failure — writes no file into the destination
directory, creates the destination directory (with parents) if it was
missing, and is distinguishable from other failures only by the
`No data found for App ID …` log message. -/
theorem download404_false_no_writes (app_id : Nat) (fs : Fs) :
    download_appid_zip app_id .notFound fs
      = (false, { fs with dirExists := true },
          [.downloading app_id, .noDataFound app_id]) := rfl

/-- C2 counterexample: with two staged plugin files of which one fails to
copy, `copy_files_to_steam` returns `True` — the very same overall result as
the run in which every copy succeeds — so a run with a failed copy is not
reported as a distinct PartialFailure outcome. -/
theorem installer_no_partial_failure_outcome :
    (copy_files_to_steam [fileA, fileB] true okOnlyB true st0).1 = true
    ∧ (copy_files_to_steam [fileA, fileB] true okOnlyB true st0).1
        = (copy_files_to_steam [fileA, fileB] true (fun _ => true) true st0).1
    ∧ okOnlyB fileA = false := by
  refine ⟨rfl, rfl, rfl⟩

/-- C2 (amended): in `copy_files_to_steam` each copy is attempted
independently — any file whose own copy succeeds lands in the destination
regardless of other files' failures — and the staging directory is still
removed; but the overall result is `True` whenever recognized files exist
and the Steam folder is found, regardless of copy failures, which are
reported only through log messages. -/
theorem installer_copies_independent (src : List StagedFile)
    (ok : StagedFile → Bool) (rm : Bool) (st : InstallState) (f : StagedFile)
    (hg : ((luaFiles src).isEmpty && (manifestFiles src).isEmpty
            && (stFiles src).isEmpty) = false)
    (hf : f ∈ pluginFiles src) (hok : ok f = true) :
    (copy_files_to_steam src true ok rm st).1 = true
    ∧ (copy_files_to_steam src true ok true st).2.1.stagingExists = false
    ∧ (copy_files_to_steam src true ok rm st).2.1.stplug f.base ≠ none := by
  refine ⟨?_, ?_, ?_⟩
  · rw [copy_files_reduce src ok rm st hg]
  · rw [copy_files_reduce src ok true st hg]
    rfl
  · rw [copy_files_reduce src ok rm st hg]
    show copyLoopD ok (pluginFiles src) st.stplug f.base ≠ none
    rw [copyLoopD_eq]
    cases hlm : lastMatch ok f.base (pluginFiles src) with
    | some g => simp
    | none => exact absurd hlm (lastMatch_isSome_of_mem hf hok)

/-- C2 witness: a concrete run with one failing and one succeeding copy
returns `True`, removes the staging directory, and still copies the
succeeding file. -/
theorem installer_copies_independent_witness :
    (copy_files_to_steam [fileA, fileB] true okOnlyB true st0).1 = true
    ∧ (copy_files_to_steam [fileA, fileB] true okOnlyB true st0).2.1.stagingExists = false
    ∧ (copy_files_to_steam [fileA, fileB] true okOnlyB true st0).2.1.stplug "b.lua" ≠ none :=
  installer_copies_independent [fileA, fileB] okOnlyB true st0 fileB
    (by decide) (by decide) (by decide)

/-- C3 counterexample: a query that contains a URL with path segment
`/app/440` but whose host is neither the storefront nor the community
domain is NOT resolved to 440; `find_game` falls through to the catalog
(here attempting a network fetch) and reports no result. -/
theorem url_without_marker_not_resolved :
    (find_game ratio0 none [] "https://example.com/app/440").1 = FindResult.notFound
    ∧ (find_game ratio0 none [] "https://example.com/app/440").2.2 = true := by
  constructor <;> rfl

/-- C3 (amended): for every query containing `store.steampowered.com` or
`steamcommunity.com` as a substring together with a path segment
`/app/<digits>`, `find_game` resolves directly to those digits — regardless
of the rest of the query — with no catalog access and the cache untouched. -/
theorem steam_url_resolves_directly (ratio : String → String → ℚ)
    (fetch : Option (List (String × Nat))) (cache : List (String × Nat))
    (q : String) (n : Nat) (h : urlAppId q = some n) :
    find_game ratio fetch cache q = (.resolvedId n, cache, false) := by
  unfold find_game
  rw [h]

/-- C3 witness: a storefront URL resolves to its embedded id with no
catalog access. -/
theorem steam_url_resolves_directly_witness :
    find_game ratio0 none [] "store.steampowered.com/app/440"
      = (.resolvedId 440, [], false) :=
  steam_url_resolves_directly ratio0 none [] _ 440 (by decide)

/-- C4 counterexample: after a failed catalog fetch (lookup reports no
result, cache left empty), a subsequent free-text lookup does NOT report
NotFound: the catalog is re-fetched, and when that second fetch succeeds
the lookup resolves the query. -/
theorem catalog_refetched_after_failure :
    (find_game ratio0 none [] "halflife").1 = FindResult.notFound
    ∧ find_game ratio0 (some [("halflife", 70)]) [] "halflife"
        = (.resolvedId 70, [("halflife", 70)], true) := by
  constructor <;> rfl

/-- C4 (amended): if the catalog fetch fails, the cache is left empty and
that free-text lookup reports no result; but the catalog is not fetched
only once — every free-text lookup on a still-empty cache attempts the
fetch again (and a later successful fetch populates the cache). -/
theorem catalog_fetch_failure_notfound (ratio : String → String → ℚ)
    (fetch2 : Option (List (String × Nat))) (q : String)
    (h1 : urlAppId q = none) (h2 : pyIsDigit q = false) :
    find_game ratio none [] q = (.notFound, [], true)
    ∧ (find_game ratio fetch2 [] q).2.2 = true := by
  constructor
  · unfold find_game
    rw [h1]
    simp [h2, get_app_list]
  · rw [find_game_fetch_attempt ratio fetch2 [] q h1 h2]
    cases fetch2 <;> simp [get_app_list]

/-- C4 witness: concrete failed-fetch lookup reports no result with the
cache left empty, and a lookup on the empty cache attempts a fetch. -/
theorem catalog_fetch_failure_notfound_witness :
    find_game ratio0 none [] "halflife" = (.notFound, [], true)
    ∧ (find_game ratio0 (some [("halflife", 70)]) [] "halflife").2.2 = true :=
  catalog_fetch_failure_notfound ratio0 (some [("halflife", 70)]) "halflife"
    (by decide) (by decide)

/-- C5 counterexample: when the companion-tool path was not found at startup
(stored path `None`) but the executable has appeared since, a launch attempt
re-probes, OVERWRITES the stored path with the probe result and launches —
it is neither skipped with a warning nor does it leave the stored path
unchanged. -/
theorem steamtools_path_reprobed :
    launch_steamtools none (some "C:/SteamTools/SteamTools.exe") (fun _ => true) true
      = (some "C:/SteamTools/SteamTools.exe", true, [.steamtoolsLaunched]) := rfl

/-- C5 (amended): once a companion-tool path is stored it is never
re-probed (`launch_steamtools` leaves it unchanged whatever the probe would
return); when no path is stored, each launch attempt re-probes the
conventional directories and stores the probe result; only when that
re-probe also finds nothing is the launch skipped with a warning. -/
theorem steamtools_launch_path_behaviour (probe probe2 : Option String)
    (pathExists pathExists2 : String → Bool) (okA okB : Bool) (p : String) :
    (launch_steamtools (some p) probe pathExists okA).1 = some p
    ∧ (launch_steamtools none probe2 pathExists2 okB).1 = probe2
    ∧ launch_steamtools none none pathExists2 okB
        = (none, false, [.steamtoolsNotFound]) := by
  refine ⟨?_, ?_, rfl⟩
  · unfold launch_steamtools
    by_cases he : pathExists p
    · simp only [he, Bool.not_true, Bool.false_eq_true, if_false]
      cases okA <;> simp
    · have : pathExists p = false := Bool.eq_false_iff.mpr he
      simp [this]
  · cases probe2 with
    | none => rfl
    | some q =>
      unfold launch_steamtools
      by_cases he : pathExists2 q
      · simp only [he, Bool.not_true, Bool.false_eq_true, if_false]
        cases okB <;> simp
      · have : pathExists2 q = false := Bool.eq_false_iff.mpr he
        simp [this]

/-- C6 counterexample: the "nothing to do" outcome of `copy_files_to_steam`
is NOT distinct from failure — an empty staging directory and a
Steam-folder-not-found failure produce the identical return value `False`,
distinguished only by log messages. -/
theorem nothing_to_do_not_distinct_from_failure :
    (copy_files_to_steam [] true okOnlyB true st0).1
      = (copy_files_to_steam [fileA] false okOnlyB true st0).1 := rfl

/-- C6 (amended): when the staging directory holds no file of any
recognized extension, `copy_files_to_steam` returns `False` — distinct from
success (`True`) but the same value as its failure outcomes, distinguished
only by the `No files found to copy.` log message — and it touches no
state: in particular the destination subdirectories are not created. -/
theorem installer_nothing_to_do (src : List StagedFile) (steamFound : Bool)
    (ok : StagedFile → Bool) (rm : Bool) (st : InstallState)
    (h1 : luaFiles src = []) (h2 : manifestFiles src = []) (h3 : stFiles src = []) :
    copy_files_to_steam src steamFound ok rm st = (false, st, [.noFilesFound]) := by
  unfold copy_files_to_steam
  rw [h1, h2, h3]
  rfl

/-- C6 witness: a concrete empty staging directory yields `False` with the
state (absent destination directories included) unchanged. -/
theorem installer_nothing_to_do_witness :
    copy_files_to_steam [] true okOnlyB true st0 = (false, st0, [.noFilesFound]) :=
  installer_nothing_to_do [] true okOnlyB true st0 rfl rfl rfl

/-- C7: on the fuzzy path (no URL hit, not numeric, catalog nonempty, no
exact match) with at least one close match, `find_game` returns the matches
as a candidate list — even a single hit, never auto-selected as a resolved
id — of at most 5 entries, each with similarity ratio at least
`mkRat 7 10 = 0.7` to the lowercased query. -/
theorem fuzzy_candidates_bounded (ratio : String → String → ℚ)
    (fetch : Option (List (String × Nat))) (cache : List (String × Nat))
    (q : String)
    (h1 : urlAppId q = none) (h2 : pyIsDigit q = false)
    (h3 : (get_app_list fetch cache).1.isEmpty = false)
    (h4 : dictGet (get_app_list fetch cache).1 (pyLower q) = none)
    (h5 : getCloseMatches ratio (pyLower q) (dictKeys (get_app_list fetch cache).1)
            5 (mkRat 7 10) ≠ []) :
    (find_game ratio fetch cache q).1
      = FindResult.candidates
          ((getCloseMatches ratio (pyLower q) (dictKeys (get_app_list fetch cache).1)
              5 (mkRat 7 10)).map
            (fun m => (m, (dictGet (get_app_list fetch cache).1 m).getD 0)))
    ∧ (getCloseMatches ratio (pyLower q) (dictKeys (get_app_list fetch cache).1)
        5 (mkRat 7 10)).length ≤ 5
    ∧ ∀ m ∈ getCloseMatches ratio (pyLower q) (dictKeys (get_app_list fetch cache).1)
        5 (mkRat 7 10), mkRat 7 10 ≤ ratio (pyLower q) m := by
  have h5' : (getCloseMatches ratio (pyLower q) (dictKeys (get_app_list fetch cache).1)
      5 (mkRat 7 10)).isEmpty = false := by
    cases hms : (getCloseMatches ratio (pyLower q) (dictKeys (get_app_list fetch cache).1)
        5 (mkRat 7 10)).isEmpty
    · rfl
    · exact absurd (List.isEmpty_iff.mp hms) h5
  refine ⟨?_, getCloseMatches_length _ _ _ _ _, fun m hm => getCloseMatches_mem hm⟩
  unfold find_game
  rw [h1]
  simp only [h2, Bool.false_eq_true, if_false, h3, h4, h5']

/-- C7 witness: a catalog with one entry and a measure rating it
fully similar produces a single-element candidate list (surfaced for
confirmation, not auto-selected) within the bounds. -/
theorem fuzzy_candidates_bounded_witness :
    (find_game ratio1 none [("halflife", 70)] "zzz").1
      = FindResult.candidates [("halflife", 70)]
    ∧ (getCloseMatches ratio1 "zzz" ["halflife"] 5 (mkRat 7 10)).length ≤ 5 := by
  have h := fuzzy_candidates_bounded ratio1 none [("halflife", 70)] "zzz"
    (by decide) (by decide) (by decide) (by decide) (by decide)
  refine ⟨?_, ?_⟩
  · rw [h.1]
    rfl
  · exact h.2.1

/-- C8: a purely numeric query resolves directly to its numeric value with
no catalog access and the cache untouched (a digit-only string can contain
neither marker substring, so the URL branch cannot fire). -/
theorem numeric_query_resolves_directly (ratio : String → String → ℚ)
    (fetch : Option (List (String × Nat))) (cache : List (String × Nat))
    (q : String) (h : pyIsDigit q = true) :
    find_game ratio fetch cache q = (.resolvedId (pyInt q), cache, false) := by
  unfold find_game
  rw [pyIsDigit_urlAppId h]
  simp [h]

/-- C8 witness: the query `440` resolves to 440 with no catalog access. -/
theorem numeric_query_resolves_directly_witness :
    find_game ratio0 none [] "440" = (.resolvedId 440, [], false) :=
  numeric_query_resolves_directly ratio0 none [] "440" rfl

/-- C9: a start request issued while the processing flag is set is rejected
immediately with no state change and no worker thread started; the flag is
never cleared by `start_download` itself and is cleared by
`finish_processing` when the run finishes. -/
theorem second_start_rejected (gs gs2 : GuiState) (exe : Option String)
    (q : String) (h : gs.is_processing = true) :
    start_download gs exe q = (gs, .rejectedBusy)
    ∧ ((start_download gs2 exe q).1.is_processing = false → gs2.is_processing = false)
    ∧ (finish_processing gs).is_processing = false := by
  refine ⟨?_, ?_, rfl⟩
  · simp [start_download, h]
  · intro h2
    cases hp : gs2.is_processing with
    | false => rfl
    | true =>
      have he : start_download gs2 exe q = (gs2, .rejectedBusy) := by
        simp [start_download, hp]
      rw [he] at h2
      have h3 : gs2.is_processing = false := h2
      rw [hp] at h3
      exact h3

/-- C9 witness: a concrete busy state rejects a second start request
unchanged, and finishing clears the flag. -/
theorem second_start_rejected_witness :
    start_download gsBusy none "x" = (gsBusy, .rejectedBusy)
    ∧ (finish_processing gsBusy).is_processing = false :=
  ⟨(second_start_rejected gsBusy gsBusy none "x" rfl).1,
   (second_start_rejected gsBusy gsBusy none "x" rfl).2.2⟩

/-- C10: the installer keys each destination file by the staged file's base
name only — the staging-relative subdirectory is discarded — so the
destination at name `k` ends up holding the LAST staged file with base name
`k` whose copy succeeded (later copies overwrite earlier ones), in each of
the two destination directories. -/
theorem installer_basename_overwrite (src : List StagedFile)
    (ok : StagedFile → Bool) (rm : Bool) (st : InstallState) (k : String)
    (hg : ((luaFiles src).isEmpty && (manifestFiles src).isEmpty
            && (stFiles src).isEmpty) = false) :
    (copy_files_to_steam src true ok rm st).2.1.stplug k
      = (match lastMatch ok k (pluginFiles src) with
         | some g => some g
         | none => st.stplug k)
    ∧ (copy_files_to_steam src true ok rm st).2.1.depot k
      = (match lastMatch ok k (manifestFiles src) with
         | some g => some g
         | none => st.depot k) := by
  rw [copy_files_reduce src ok rm st hg]
  exact ⟨copyLoopD_eq ok (pluginFiles src) st.stplug k,
         copyLoopD_eq ok (manifestFiles src) st.depot k⟩

/-- C10 witness: two staged files named `x.lua` in different subdirectories
land on the same destination name, and the later one overwrites the
earlier. -/
theorem installer_basename_overwrite_witness :
    (copy_files_to_steam [fileSub1, fileSub2] true (fun _ => true) true st0).2.1.stplug "x.lua"
      = some fileSub2 := by
  have h := (installer_basename_overwrite [fileSub1, fileSub2] (fun _ => true) true st0
    "x.lua" (by decide)).1
  rw [h]
  rfl

end SteamToolsAdder
